import Mathlib

/-!
Shallow embedding of the beam-sizing core engine (`core_engine.py`).

Numeric model: the Python code computes with IEEE floats; the embedding uses
exact rationals (ℚ), following the spec's own recommendation to generate the
depth grid as `0.20 + i·0.01` for `i = 0, …, 79` to avoid float drift.
`Rat` division by zero yields 0 in Lean whereas NumPy floats yield `inf`;
this difference is only reachable in the `safety_factor` field when the
stress is exactly 0, and no property below distinguishes the two encodings.
Python's `round(x, n)` (round-half-to-even at `n` decimal digits) is modelled
exactly by `pyRound`.
-/

namespace CoreEngine

/-- Rounding to nearest integer with ties to even, as Python's `round`. -/
def roundHalfEven (q : ℚ) : ℤ :=
  if q - ⌊q⌋ < 1/2 then ⌊q⌋
  else if 1/2 < q - ⌊q⌋ then ⌊q⌋ + 1
  else if ⌊q⌋ % 2 = 0 then ⌊q⌋ else ⌊q⌋ + 1

/-- Python's `round(q, ndigits)` on exact rationals. -/
def pyRound (ndigits : ℕ) (q : ℚ) : ℚ :=
  (roundHalfEven (q * 10 ^ ndigits) : ℚ) / 10 ^ ndigits

/-- The material names present in the `MATERIALS` table. -/
inductive Material where
  | Concrete
  | Steel
deriving DecidableEq, Repr

/-- `MATERIALS[material]["allowable_stress"]` (Pa). -/
def allowable_stress : Material → ℚ
  | .Concrete => 5000000
  | .Steel => 250000000

/-- `MATERIALS[material]["cost_per_m3"]` (currency per cubic meter). -/
def cost_per_m3 : Material → ℚ
  | .Concrete => 5000
  | .Steel => 60000

/-- `calculate_bending_moment`: M = w·L²/8. -/
def calculate_bending_moment (load_per_m span : ℚ) : ℚ :=
  (load_per_m * span ^ 2) / 8

/-- `calculate_section_modulus`: Z = b·d²/6. -/
def calculate_section_modulus (width depth : ℚ) : ℚ :=
  (width * depth ^ 2) / 6

/-- `calculate_stress`: sigma = M/Z. -/
def calculate_stress (moment section_modulus : ℚ) : ℚ :=
  moment / section_modulus

/-- The dictionary built by `optimize_beam` when a feasible depth is found. -/
structure Design where
  depth : ℚ
  stress : ℚ
  cost : ℚ
  safety_factor : ℚ
deriving DecidableEq, Repr

/-- Number of candidates scanned by `np.arange(0.2, 1.0, 0.01)`. -/
def num_candidates : ℕ := 80

/-- The i-th scanned depth, 0.20 + i·0.01. -/
def depth_at (i : ℕ) : ℚ := 1/5 + (i : ℚ) / 100

/-- The candidate list produced by `np.arange(0.2, 1.0, 0.01)`. -/
def depth_candidates : List ℚ := (List.range num_candidates).map depth_at

/-- The loop body's acceptance test `stress < allowable_stress` at candidate i. -/
def FeasibleAt (span load_per_m : ℚ) (material : Material) (width : ℚ) (i : ℕ) : Prop :=
  calculate_stress (calculate_bending_moment load_per_m span)
    (calculate_section_modulus width (depth_at i)) < allowable_stress material

instance (span load_per_m : ℚ) (material : Material) (width : ℚ) (i : ℕ) :
    Decidable (FeasibleAt span load_per_m material width i) := by
  unfold FeasibleAt
  infer_instance

/-- The `for … break` loop of `optimize_beam`: first index satisfying `p`. -/
def find_first_idx (p : ℕ → Bool) : List ℕ → Option ℕ
  | [] => none
  | i :: rest => if p i then some i else find_first_idx p rest

/-- The `best_solution` dictionary assembled at candidate i:
depth rounded to 3 decimals, stress and cost to 2, safety factor
`allowable_stress / stress` (computed from the unrounded stress) to 2. -/
def make_design (span load_per_m : ℚ) (material : Material) (width : ℚ) (i : ℕ) : Design :=
  let moment := calculate_bending_moment load_per_m span
  let Z := calculate_section_modulus width (depth_at i)
  let stress := calculate_stress moment Z
  let volume := width * depth_at i * span
  let cost := volume * cost_per_m3 material
  { depth := pyRound 3 (depth_at i)
    stress := pyRound 2 stress
    cost := pyRound 2 cost
    safety_factor := pyRound 2 (allowable_stress material / stress) }

/-- `optimize_beam(span, load_per_m, material, width=0.3)`: scan the depth
grid, return the design of the first depth whose stress is strictly below
the allowable stress, or `none` (Python `None`) when the loop never breaks. -/
def optimize_beam (span load_per_m : ℚ) (material : Material) (width : ℚ) : Option Design :=
  match find_first_idx
      (fun i => decide (FeasibleAt span load_per_m material width i))
      (List.range num_candidates) with
  | some i => some (make_design span load_per_m material width i)
  | none => none

/-- `recalibrate_design(span, expected_load, material, width=0.3)`.
The sensor noise of `simulate_sensor_load` is non-deterministic, so the
sampler is injected as a function, per the spec's treatment of the
LoadSampler as an external collaborator.  The function returns the pair
`(initial_design, updated_design)`; the sampled load is only printed. -/
def recalibrate_design (sample : ℚ → ℚ) (span expected_load : ℚ)
    (material : Material) (width : ℚ) : Option Design × Option Design :=
  let initial_design := optimize_beam span expected_load material width
  let actual_load := sample expected_load
  let updated_design := optimize_beam span actual_load material width
  (initial_design, updated_design)

/-! ### Characterization of the scan loop -/

theorem find_first_idx_some {p : ℕ → Bool} :
    ∀ n a j, find_first_idx p (List.range' a n) = some j →
      a ≤ j ∧ j < a + n ∧ p j = true ∧ ∀ k, a ≤ k → k < j → p k = false := by
  intro n
  induction n with
  | zero => intro a j h; simp [find_first_idx] at h
  | succ n ih =>
    intro a j h
    rw [List.range'_succ] at h
    simp only [find_first_idx] at h
    by_cases hpa : p a = true
    · rw [if_pos hpa] at h
      obtain rfl : a = j := Option.some.inj h
      exact ⟨le_refl _, by omega, hpa, fun k hk1 hk2 => absurd hk1 (by omega)⟩
    · rw [if_neg hpa] at h
      obtain ⟨h1, h2, h3, h4⟩ := ih (a + 1) j h
      refine ⟨by omega, by omega, h3, ?_⟩
      intro k hk1 hk2
      rcases eq_or_lt_of_le hk1 with rfl | hlt
      · simpa using hpa
      · exact h4 k hlt hk2

theorem find_first_idx_none {p : ℕ → Bool} :
    ∀ n a, find_first_idx p (List.range' a n) = none ↔
      ∀ k, a ≤ k → k < a + n → p k = false := by
  intro n
  induction n with
  | zero =>
    intro a
    constructor
    · intro _ k hk1 hk2; exact absurd hk2 (by omega)
    · intro _; rfl
  | succ n ih =>
    intro a
    rw [List.range'_succ]
    simp only [find_first_idx]
    by_cases hpa : p a = true
    · rw [if_pos hpa]
      constructor
      · intro h; exact absurd h (by simp)
      · intro h
        have hfalse := h a (le_refl a) (by omega)
        rw [hpa] at hfalse
        exact Bool.noConfusion hfalse
    · rw [if_neg hpa]
      rw [ih (a + 1)]
      constructor
      · intro h k hk1 hk2
        rcases eq_or_lt_of_le hk1 with rfl | hlt
        · simpa using hpa
        · exact h k hlt (by omega)
      · intro h k hk1 hk2
        exact h k (by omega) (by omega)

theorem find_first_idx_eq_some {p : ℕ → Bool} :
    ∀ n a j, a ≤ j → j < a + n → p j = true →
      (∀ k, a ≤ k → k < j → p k = false) →
      find_first_idx p (List.range' a n) = some j := by
  intro n
  induction n with
  | zero => intro a j h1 h2; omega
  | succ n ih =>
    intro a j h1 h2 h3 h4
    rw [List.range'_succ]
    simp only [find_first_idx]
    rcases eq_or_lt_of_le h1 with rfl | hlt
    · rw [if_pos h3]
    · rw [if_neg (by simp [h4 a (le_refl a) hlt])]
      exact ih (a + 1) j hlt (by omega) h3 (fun k hk1 hk2 => h4 k (by omega) hk2)

/-- `optimize_beam` returns a design exactly when some candidate is feasible;
the design is built at the first feasible index. -/
theorem optimize_beam_some_iff {s w b : ℚ} {m : Material} {des : Design} :
    optimize_beam s w m b = some des ↔
      ∃ i, i < num_candidates ∧ FeasibleAt s w m b i ∧
        (∀ k, k < i → ¬ FeasibleAt s w m b k) ∧ des = make_design s w m b i := by
  unfold optimize_beam
  rw [List.range_eq_range']
  constructor
  · intro h
    cases hf : find_first_idx (fun i => decide (FeasibleAt s w m b i))
        (List.range' 0 num_candidates) with
    | none => rw [hf] at h; exact absurd h (by simp)
    | some i =>
      rw [hf] at h
      obtain ⟨_, h2, h3, h4⟩ := find_first_idx_some _ _ _ hf
      refine ⟨i, by omega, of_decide_eq_true h3, ?_, (Option.some.inj h).symm⟩
      intro k hk
      exact of_decide_eq_false (h4 k (Nat.zero_le k) hk)
  · rintro ⟨i, hi, hfeas, hmin, rfl⟩
    rw [find_first_idx_eq_some num_candidates 0 i (Nat.zero_le i) (by omega)
      (decide_eq_true hfeas) (fun k _ hk => decide_eq_false (hmin k hk))]

/-- `optimize_beam` returns `none` exactly when no candidate is feasible. -/
theorem optimize_beam_none_iff {s w b : ℚ} {m : Material} :
    optimize_beam s w m b = none ↔
      ∀ i, i < num_candidates → ¬ FeasibleAt s w m b i := by
  unfold optimize_beam
  rw [List.range_eq_range']
  cases hf : find_first_idx (fun i => decide (FeasibleAt s w m b i))
      (List.range' 0 num_candidates) with
  | none =>
    rw [find_first_idx_none] at hf
    constructor
    · intro _ i hi
      exact of_decide_eq_false (hf i (Nat.zero_le i) (by omega))
    · intro _; rfl
  | some i =>
    obtain ⟨_, h2, h3, _⟩ := find_first_idx_some _ _ _ hf
    constructor
    · intro h; exact absurd h (by simp)
    · intro h
      exact absurd (of_decide_eq_true h3) (h i (by omega))

/-! ### Arithmetic facts about the mechanics formulas -/

theorem allowable_stress_pos (m : Material) : 0 < allowable_stress m := by
  cases m <;> norm_num [allowable_stress]

theorem cost_per_m3_pos (m : Material) : 0 < cost_per_m3 m := by
  cases m <;> norm_num [cost_per_m3]

theorem depth_at_pos (i : ℕ) : 0 < depth_at i := by
  unfold depth_at
  positivity

theorem depth_at_mono {i j : ℕ} (h : i ≤ j) : depth_at i ≤ depth_at j := by
  unfold depth_at
  have : (i : ℚ) ≤ (j : ℚ) := by exact_mod_cast h
  linarith

theorem section_modulus_pos {b : ℚ} (hb : 0 < b) (i : ℕ) :
    0 < calculate_section_modulus b (depth_at i) := by
  unfold calculate_section_modulus
  have hd := depth_at_pos i
  positivity

theorem section_modulus_mono {b : ℚ} (hb : 0 < b) {i j : ℕ} (h : i ≤ j) :
    calculate_section_modulus b (depth_at i) ≤ calculate_section_modulus b (depth_at j) := by
  unfold calculate_section_modulus
  have h1 := depth_at_mono h
  have h2 := (depth_at_pos i).le
  gcongr

theorem moment_nonneg {w s : ℚ} (hw : 0 ≤ w) : 0 ≤ calculate_bending_moment w s := by
  unfold calculate_bending_moment
  positivity

theorem moment_pos {w s : ℚ} (hw : 0 < w) (hs : 0 < s) :
    0 < calculate_bending_moment w s := by
  unfold calculate_bending_moment
  have : s ≠ 0 := ne_of_gt hs
  positivity

theorem moment_mono {w1 w2 s : ℚ} (h : w1 ≤ w2) :
    calculate_bending_moment w1 s ≤ calculate_bending_moment w2 s := by
  unfold calculate_bending_moment
  have hs : 0 ≤ s ^ 2 := sq_nonneg s
  have := mul_le_mul_of_nonneg_right h hs
  linarith

/-- Stress is antitone in the scanned depth when the moment is non-negative. -/
theorem stress_anti {s w b : ℚ} (hw : 0 ≤ calculate_bending_moment w s) (hb : 0 < b)
    {i j : ℕ} (hij : i ≤ j) :
    calculate_stress (calculate_bending_moment w s) (calculate_section_modulus b (depth_at j)) ≤
      calculate_stress (calculate_bending_moment w s) (calculate_section_modulus b (depth_at i)) := by
  unfold calculate_stress
  exact div_le_div_of_nonneg_left hw (section_modulus_pos hb i) (section_modulus_mono hb hij)

/-- For non-negative load and positive width, infeasibility propagates downward
through the ascending depth scan. -/
theorem infeasible_below {s w b : ℚ} {m : Material} (hw : 0 ≤ w) (hb : 0 < b)
    {j : ℕ} (hj : ¬ FeasibleAt s w m b j) {k : ℕ} (hk : k ≤ j) :
    ¬ FeasibleAt s w m b k := by
  unfold FeasibleAt at *
  push_neg at *
  exact le_trans hj (stress_anti (moment_nonneg hw) hb hk)

/-- Raising the load can only shrink the feasible set. -/
theorem feasible_mono_load {s w1 w2 b : ℚ} {m : Material} (hb : 0 < b) (hw : w1 ≤ w2)
    {i : ℕ} (h : FeasibleAt s w2 m b i) : FeasibleAt s w1 m b i := by
  unfold FeasibleAt calculate_stress at *
  refine lt_of_le_of_lt ?_ h
  have hZ := (section_modulus_pos hb i).le
  have hM := moment_mono (s := s) hw
  gcongr

/-! ### Facts about Python rounding -/

theorem roundHalfEven_intCast (z : ℤ) : roundHalfEven (z : ℚ) = z := by
  unfold roundHalfEven
  rw [Int.floor_intCast]
  norm_num

theorem roundHalfEven_eq_floor {q : ℚ} (h : q - ⌊q⌋ < 1/2) : roundHalfEven q = ⌊q⌋ := by
  unfold roundHalfEven
  rw [if_pos h]

theorem roundHalfEven_eq_ceil {q : ℚ} (h : 1/2 < q - ⌊q⌋) : roundHalfEven q = ⌊q⌋ + 1 := by
  unfold roundHalfEven
  rw [if_neg (by linarith), if_pos h]

theorem floor_le_roundHalfEven (q : ℚ) : ⌊q⌋ ≤ roundHalfEven q := by
  unfold roundHalfEven
  split_ifs <;> omega

theorem pyRound_intCast (n : ℕ) (z : ℤ) : pyRound n (z : ℚ) = z := by
  unfold pyRound
  have h : (z : ℚ) * 10 ^ n = ((z * 10 ^ n : ℤ) : ℚ) := by push_cast; ring
  rw [h, roundHalfEven_intCast]
  push_cast
  rw [mul_div_assoc, div_self (by positivity), mul_one]

theorem pyRound_depth_at (i : ℕ) : pyRound 3 (depth_at i) = depth_at i := by
  unfold pyRound depth_at
  have h : (1/5 + (i : ℚ)/100) * 10 ^ 3 = ((200 + 10 * (i : ℤ) : ℤ) : ℚ) := by
    push_cast
    ring
  rw [h, roundHalfEven_intCast]
  push_cast
  ring

theorem pyRound_nonneg (n : ℕ) {q : ℚ} (h : 0 ≤ q) : 0 ≤ pyRound n q := by
  unfold pyRound
  apply div_nonneg _ (by positivity)
  have h1 : (0 : ℤ) ≤ ⌊q * 10 ^ n⌋ := Int.floor_nonneg.mpr (by positivity)
  have h2 := floor_le_roundHalfEven (q * 10 ^ n)
  exact_mod_cast le_trans h1 h2

theorem one_le_pyRound_two {q : ℚ} (h : 1 < q) : 1 ≤ pyRound 2 q := by
  unfold pyRound
  rw [le_div_iff₀ (by positivity : (0:ℚ) < 10 ^ 2)]
  have h1 : (100 : ℤ) ≤ ⌊q * 10 ^ 2⌋ := by
    rw [Int.le_floor]
    push_cast
    nlinarith
  have h2 := floor_le_roundHalfEven (q * 10 ^ 2)
  have h3 : ((100 : ℤ) : ℚ) ≤ ((roundHalfEven (q * 10 ^ 2) : ℤ) : ℚ) :=
    by exact_mod_cast le_trans h1 h2
  norm_num at h3 ⊢
  linarith

/-! ### Concrete runs used as witnesses (span 5 m, width 0.3 m, Concrete) -/

theorem feas_main_31 : FeasibleAt 5 20000 Material.Concrete (3/10) 31 := by
  unfold FeasibleAt calculate_stress calculate_bending_moment calculate_section_modulus
    depth_at allowable_stress
  norm_num

theorem infeas_main_30 : ¬ FeasibleAt 5 20000 Material.Concrete (3/10) 30 := by
  unfold FeasibleAt calculate_stress calculate_bending_moment calculate_section_modulus
    depth_at allowable_stress
  norm_num

/-- The spec's reference scenario: span 5 m, load 20000 N/m, Concrete,
width 0.3 m; the first feasible candidate is index 31, depth 0.51 m. -/
theorem optimize_concrete_main :
    optimize_beam 5 20000 Material.Concrete (3/10) =
      some (make_design 5 20000 Material.Concrete (3/10) 31) :=
  optimize_beam_some_iff.mpr ⟨31, by norm_num [num_candidates], feas_main_31,
    fun k hk => infeasible_below (by norm_num) (by norm_num) infeas_main_30 (by omega), rfl⟩

theorem feas_30000_42 : FeasibleAt 5 30000 Material.Concrete (3/10) 42 := by
  unfold FeasibleAt calculate_stress calculate_bending_moment calculate_section_modulus
    depth_at allowable_stress
  norm_num

theorem infeas_30000_41 : ¬ FeasibleAt 5 30000 Material.Concrete (3/10) 41 := by
  unfold FeasibleAt calculate_stress calculate_bending_moment calculate_section_modulus
    depth_at allowable_stress
  norm_num

theorem optimize_concrete_30000 :
    optimize_beam 5 30000 Material.Concrete (3/10) =
      some (make_design 5 30000 Material.Concrete (3/10) 42) :=
  optimize_beam_some_iff.mpr ⟨42, by norm_num [num_candidates], feas_30000_42,
    fun k hk => infeasible_below (by norm_num) (by norm_num) infeas_30000_41 (by omega), rfl⟩

theorem infeas_100000_79 : ¬ FeasibleAt 5 100000 Material.Concrete (3/10) 79 := by
  unfold FeasibleAt calculate_stress calculate_bending_moment calculate_section_modulus
    depth_at allowable_stress
  norm_num

/-- At load 100000 N/m even the deepest candidate (0.99 m) is overstressed. -/
theorem infeasible_all_100000 :
    ∀ i, i < num_candidates → ¬ FeasibleAt 5 100000 Material.Concrete (3/10) i := by
  intro i hi
  simp only [num_candidates] at hi
  exact infeasible_below (by norm_num) (by norm_num) infeas_100000_79 (by omega)

theorem infeas_200000_79 : ¬ FeasibleAt 5 200000 Material.Concrete (3/10) 79 := by
  unfold FeasibleAt calculate_stress calculate_bending_moment calculate_section_modulus
    depth_at allowable_stress
  norm_num

theorem infeasible_all_200000 :
    ∀ i, i < num_candidates → ¬ FeasibleAt 5 200000 Material.Concrete (3/10) i := by
  intro i hi
  simp only [num_candidates] at hi
  exact infeasible_below (by norm_num) (by norm_num) infeas_200000_79 (by omega)

theorem optimize_concrete_100000 :
    optimize_beam 5 100000 Material.Concrete (3/10) = none :=
  optimize_beam_none_iff.mpr infeasible_all_100000

theorem optimize_concrete_200000 :
    optimize_beam 5 200000 Material.Concrete (3/10) = none :=
  optimize_beam_none_iff.mpr infeasible_all_200000

/-- With span = -1 the stress test still passes at the first candidate. -/
theorem feas_neg_span_0 : FeasibleAt (-1) 20000 Material.Concrete (3/10) 0 := by
  unfold FeasibleAt calculate_stress calculate_bending_moment calculate_section_modulus
    depth_at allowable_stress
  norm_num

theorem optimize_concrete_neg_span :
    optimize_beam (-1) 20000 Material.Concrete (3/10) =
      some (make_design (-1) 20000 Material.Concrete (3/10) 0) :=
  optimize_beam_some_iff.mpr ⟨0, by norm_num [num_candidates], feas_neg_span_0,
    fun k hk => absurd hk (by omega), rfl⟩

/-- With a negative (uplift) load the stress is negative, so the first
candidate is accepted immediately. -/
theorem feas_neg_load_0 : FeasibleAt 5 (-20000) Material.Concrete (3/10) 0 := by
  unfold FeasibleAt calculate_stress calculate_bending_moment calculate_section_modulus
    depth_at allowable_stress
  norm_num

theorem optimize_concrete_neg_load :
    optimize_beam 5 (-20000) Material.Concrete (3/10) =
      some (make_design 5 (-20000) Material.Concrete (3/10) 0) :=
  optimize_beam_some_iff.mpr ⟨0, by norm_num [num_candidates], feas_neg_load_0,
    fun k hk => absurd hk (by omega), rfl⟩

theorem make_design_neg_span_stress :
    (make_design (-1) 20000 Material.Concrete (3/10) 0).stress = 1250000 := by
  have h : calculate_stress (calculate_bending_moment 20000 (-1))
      (calculate_section_modulus (3/10) (depth_at 0)) = ((1250000 : ℤ) : ℚ) := by
    unfold calculate_stress calculate_bending_moment calculate_section_modulus depth_at
    norm_num
  simp only [make_design, h, pyRound_intCast]
  norm_num

theorem make_design_neg_load_stress :
    (make_design 5 (-20000) Material.Concrete (3/10) 0).stress = -31250000 := by
  have h : calculate_stress (calculate_bending_moment (-20000) 5)
      (calculate_section_modulus (3/10) (depth_at 0)) = ((-31250000 : ℤ) : ℚ) := by
    unfold calculate_stress calculate_bending_moment calculate_section_modulus depth_at
    norm_num
  simp only [make_design, h, pyRound_intCast]
  norm_num

/-! ### The claims -/

/-- Claim C1: for every span > 0, loadPerLength > 0, width > 0 and material in
the catalog, whenever `optimize_beam` returns a Design, the unrounded bending
stress at the returned depth is strictly below the material's allowable
stress; a Design violating the constraint is never returned. -/
theorem C1_stress_lt_allowable (s w b : ℚ) (m : Material) (des : Design)
    (hs : 0 < s) (hw : 0 < w) (hb : 0 < b)
    (h : optimize_beam s w m b = some des) :
    calculate_stress (calculate_bending_moment w s)
      (calculate_section_modulus b des.depth) < allowable_stress m := by
  obtain ⟨i, hi, hfeas, hmin, rfl⟩ := optimize_beam_some_iff.mp h
  have hdepth : (make_design s w m b i).depth = depth_at i := by
    simp only [make_design]
    exact pyRound_depth_at i
  rw [hdepth]
  exact hfeas

theorem C1_witness :
    calculate_stress (calculate_bending_moment 20000 5)
      (calculate_section_modulus (3/10)
        ((make_design 5 20000 Material.Concrete (3/10) 31).depth)) <
      allowable_stress Material.Concrete :=
  C1_stress_lt_allowable 5 20000 (3/10) Material.Concrete _
    (by norm_num) (by norm_num) (by norm_num) optimize_concrete_main

/-- Claim C2: the scan runs over the fixed ascending 80-element candidate set
0.20, 0.21, …, 0.99; for each candidate Z = width·depth²/6 and
stress = moment/Z are computed, the Design of the first candidate with
stress < allowable stress is returned, and its depth is the minimum feasible
depth over the whole candidate set. -/
theorem C2_first_feasible_min_depth (s w b : ℚ) (m : Material) (des : Design)
    (h : optimize_beam s w m b = some des) :
    depth_candidates.length = 80 ∧
    (∀ i : ℕ, i < 80 → depth_candidates[i]? = some (1/5 + (i : ℚ)/100)) ∧
    ∃ i, i < 80 ∧ des = make_design s w m b i ∧ des.depth = depth_at i ∧
      FeasibleAt s w m b i ∧ (∀ k, k < i → ¬ FeasibleAt s w m b k) ∧
      ∀ j, j < 80 → FeasibleAt s w m b j → des.depth ≤ depth_at j := by
  refine ⟨by simp [depth_candidates, num_candidates], ?_, ?_⟩
  · intro i hi
    unfold depth_candidates num_candidates
    rw [List.getElem?_map, List.getElem?_range hi]
    rfl
  · obtain ⟨i, hi, hfeas, hmin, rfl⟩ := optimize_beam_some_iff.mp h
    have hdepth : (make_design s w m b i).depth = depth_at i := by
      simp only [make_design]
      exact pyRound_depth_at i
    refine ⟨i, by simpa [num_candidates] using hi, rfl, hdepth, hfeas, hmin, ?_⟩
    intro j hj hfj
    rw [hdepth]
    by_cases hij : i ≤ j
    · exact depth_at_mono hij
    · exact absurd hfj (hmin j (by omega))

theorem C2_witness :
    depth_candidates.length = 80 ∧
    depth_candidates[31]? = some (1/5 + (31 : ℚ)/100) :=
  ⟨(C2_first_feasible_min_depth 5 20000 (3/10) Material.Concrete _
      optimize_concrete_main).1,
   (C2_first_feasible_min_depth 5 20000 (3/10) Material.Concrete _
      optimize_concrete_main).2.1 31 (by norm_num)⟩

/-- Claim C3: for span > 0, width > 0 and a catalogued material, when no
candidate depth satisfies the stress test, `optimize_beam` returns the
`none` sentinel (NoSolution), which is distinct in the return type from any
Design, and the call is a total function (no exception). -/
theorem C3_no_feasible_returns_none (s w b : ℚ) (m : Material)
    (hs : 0 < s) (hb : 0 < b)
    (h : ∀ d ∈ depth_candidates,
      ¬ calculate_stress (calculate_bending_moment w s)
          (calculate_section_modulus b d) < allowable_stress m) :
    optimize_beam s w m b = none ∧
    ∀ des : Design, optimize_beam s w m b ≠ some des := by
  have hidx : ∀ i, i < num_candidates → ¬ FeasibleAt s w m b i := by
    intro i hi
    have hmem : depth_at i ∈ depth_candidates := by
      unfold depth_candidates
      exact List.mem_map.mpr ⟨i, List.mem_range.mpr hi, rfl⟩
    exact h (depth_at i) hmem
  have hnone := optimize_beam_none_iff.mpr hidx
  exact ⟨hnone, fun des hdes => by rw [hnone] at hdes; exact Option.noConfusion hdes⟩

theorem C3_witness : optimize_beam 5 100000 Material.Concrete (3/10) = none := by
  have hlist : ∀ d ∈ depth_candidates,
      ¬ calculate_stress (calculate_bending_moment 100000 5)
          (calculate_section_modulus (3/10) d) < allowable_stress Material.Concrete := by
    intro d hd
    unfold depth_candidates at hd
    obtain ⟨i, hi, rfl⟩ := List.mem_map.mp hd
    exact infeasible_all_100000 i (List.mem_range.mp hi)
  exact (C3_no_feasible_returns_none 5 100000 (3/10) Material.Concrete
    (by norm_num) (by norm_num) hlist).1

/-- Claim C4 counterexample: two samplers reporting different observed loads
yield identical `recalibrate_design` results, so the observed load is not
part of the returned value; the code returns only the pair
(initial, updated). -/
theorem C4_counterexample :
    (100000 : ℚ) ≠ 200000 ∧
    recalibrate_design (fun _ => 100000) 5 20000 Material.Concrete (3/10) =
      recalibrate_design (fun _ => 200000) 5 20000 Material.Concrete (3/10) := by
  constructor
  · norm_num
  · simp only [recalibrate_design]
    rw [optimize_concrete_100000, optimize_concrete_200000]

/-- Claim C4 (amended): `recalibrate_design` computes initial from the
expected load, samples the observed load from the expected load, computes
updated from the observed load, and returns the pair (initial, updated);
the observed load itself is not part of the return value. -/
theorem C4_recalibrate_sequence (sample : ℚ → ℚ) (s w b : ℚ) (m : Material) :
    recalibrate_design sample s w m b =
      (optimize_beam s w m b, optimize_beam s (sample w) m b) := rfl

/-- Claim C5 counterexample: with span = -1 ≤ 0 `optimize_beam` does not fail
fast: it runs the scan and returns a Design whose stress was computed. -/
theorem C5_counterexample :
    optimize_beam (-1) 20000 Material.Concrete (3/10) =
      some (make_design (-1) 20000 Material.Concrete (3/10) 0) ∧
    (make_design (-1) 20000 Material.Concrete (3/10) 0).stress = 1250000 :=
  ⟨optimize_concrete_neg_span, make_design_neg_span_stress⟩

/-- Claim C5 (amended): `optimize_beam` performs no InvalidGeometry
validation; for width ≤ 0 or span ≤ 0 it still runs the stress scan and its
outcome is decided by the stress test alone (`none` exactly when no candidate
passes). -/
theorem C5_no_geometry_guard (s w b : ℚ) (m : Material) (hinv : s ≤ 0 ∨ b ≤ 0) :
    optimize_beam s w m b = none ↔
      ∀ i, i < num_candidates → ¬ FeasibleAt s w m b i :=
  optimize_beam_none_iff

theorem C5_witness : optimize_beam (-1) 20000 Material.Concrete (3/10) ≠ none :=
  fun h =>
    (C5_no_geometry_guard (-1) 20000 (3/10) Material.Concrete
      (Or.inl (by norm_num))).mp h 0 (by norm_num [num_candidates]) feas_neg_span_0

/-- Claim C6: for fixed span > 0, width > 0 and material, raising the load
never decreases the returned depth, and infeasibility at the smaller load
implies infeasibility at the larger load. -/
theorem C6_depth_monotone_in_load (s w1 w2 b : ℚ) (m : Material)
    (hs : 0 < s) (hb : 0 < b) (hw : w1 ≤ w2) :
    (∀ d1 d2 : Design, optimize_beam s w1 m b = some d1 →
      optimize_beam s w2 m b = some d2 → d1.depth ≤ d2.depth) ∧
    (optimize_beam s w1 m b = none → optimize_beam s w2 m b = none) := by
  constructor
  · intro d1 d2 h1 h2
    obtain ⟨i1, hi1, hf1, hmin1, rfl⟩ := optimize_beam_some_iff.mp h1
    obtain ⟨i2, hi2, hf2, hmin2, rfl⟩ := optimize_beam_some_iff.mp h2
    have hd1 : (make_design s w1 m b i1).depth = depth_at i1 := by
      simp only [make_design]
      exact pyRound_depth_at i1
    have hd2 : (make_design s w2 m b i2).depth = depth_at i2 := by
      simp only [make_design]
      exact pyRound_depth_at i2
    rw [hd1, hd2]
    apply depth_at_mono
    by_contra hlt
    push_neg at hlt
    exact hmin1 i2 hlt (feasible_mono_load hb hw hf2)
  · intro h1
    rw [optimize_beam_none_iff] at h1 ⊢
    intro i hi hf2
    exact h1 i hi (feasible_mono_load hb hw hf2)

theorem C6_witness :
    (make_design 5 20000 Material.Concrete (3/10) 31).depth ≤
      (make_design 5 30000 Material.Concrete (3/10) 42).depth :=
  (C6_depth_monotone_in_load 5 20000 30000 (3/10) Material.Concrete
    (by norm_num) (by norm_num) (by norm_num)).1 _ _
    optimize_concrete_main optimize_concrete_30000

/-- Claim C7 counterexample: with a negative (uplift) load the returned
Design has negative stress, refuting non-negativity for arbitrary real
loads. -/
theorem C7_counterexample :
    optimize_beam 5 (-20000) Material.Concrete (3/10) =
      some (make_design 5 (-20000) Material.Concrete (3/10) 0) ∧
    (make_design 5 (-20000) Material.Concrete (3/10) 0).stress < 0 := by
  refine ⟨optimize_concrete_neg_load, ?_⟩
  rw [make_design_neg_load_stress]
  norm_num

/-- Claim C7 (amended): for span > 0, width > 0 and non-negative load, every
Design returned by `optimize_beam` has non-negative stress, non-negative
cost and safety factor ≥ 0. -/
theorem C7_design_nonneg (s w b : ℚ) (m : Material) (des : Design)
    (hs : 0 < s) (hw : 0 ≤ w) (hb : 0 < b)
    (h : optimize_beam s w m b = some des) :
    0 ≤ des.stress ∧ 0 ≤ des.cost ∧ 0 ≤ des.safety_factor := by
  obtain ⟨i, hi, hfeas, hmin, rfl⟩ := optimize_beam_some_iff.mp h
  have hM := moment_nonneg (s := s) hw
  have hZ := (section_modulus_pos hb i).le
  have hstress : 0 ≤ calculate_stress (calculate_bending_moment w s)
      (calculate_section_modulus b (depth_at i)) := div_nonneg hM hZ
  refine ⟨?_, ?_, ?_⟩
  · simp only [make_design]
    exact pyRound_nonneg 2 hstress
  · simp only [make_design]
    apply pyRound_nonneg
    have hd := depth_at_pos i
    have hc := cost_per_m3_pos m
    positivity
  · simp only [make_design]
    apply pyRound_nonneg
    exact div_nonneg (allowable_stress_pos m).le hstress

theorem C7_witness :
    0 ≤ (make_design 5 20000 Material.Concrete (3/10) 31).stress ∧
    0 ≤ (make_design 5 20000 Material.Concrete (3/10) 31).cost ∧
    0 ≤ (make_design 5 20000 Material.Concrete (3/10) 31).safety_factor :=
  C7_design_nonneg 5 20000 (3/10) Material.Concrete _
    (by norm_num) (by norm_num) (by norm_num) optimize_concrete_main

/-- Claim C8: for span > 0, width > 0 and any catalogued material, a zero
load makes every candidate feasible, so the minimum candidate depth 0.20 m
is returned with stress 0. -/
theorem C8_zero_load (s b : ℚ) (m : Material) (hs : 0 < s) (hb : 0 < b) :
    optimize_beam s 0 m b = some (make_design s 0 m b 0) ∧
    (make_design s 0 m b 0).depth = 1/5 ∧
    (make_design s 0 m b 0).stress = 0 := by
  have hfeas : FeasibleAt s 0 m b 0 := by
    unfold FeasibleAt calculate_stress calculate_bending_moment
    rw [zero_mul, zero_div, zero_div]
    exact allowable_stress_pos m
  refine ⟨optimize_beam_some_iff.mpr ⟨0, by norm_num [num_candidates], hfeas,
    fun k hk => absurd hk (by omega), rfl⟩, ?_, ?_⟩
  · simp only [make_design]
    rw [pyRound_depth_at]
    norm_num [depth_at]
  · simp only [make_design]
    have h0 : calculate_stress (calculate_bending_moment 0 s)
        (calculate_section_modulus b (depth_at 0)) = ((0 : ℤ) : ℚ) := by
      unfold calculate_stress calculate_bending_moment
      rw [zero_mul, zero_div, zero_div]
      norm_num
    rw [h0, pyRound_intCast]
    norm_num

theorem C8_witness :
    optimize_beam 5 0 Material.Concrete (3/10) =
      some (make_design 5 0 Material.Concrete (3/10) 0) ∧
    (make_design 5 0 Material.Concrete (3/10) 0).depth = 1/5 ∧
    (make_design 5 0 Material.Concrete (3/10) 0).stress = 0 :=
  C8_zero_load 5 (3/10) Material.Concrete (by norm_num) (by norm_num)

/-- Claim C9: with width > 0, every scanned depth is at least 0.20 > 0, so
the section modulus is strictly positive (in particular non-zero) at every
loop iteration and the stress division never has a zero divisor. -/
theorem C9_no_zero_divisor (b : ℚ) (hb : 0 < b) :
    ∀ d ∈ depth_candidates,
      1/5 ≤ d ∧ 0 < calculate_section_modulus b d ∧
        calculate_section_modulus b d ≠ 0 := by
  intro d hd
  unfold depth_candidates at hd
  obtain ⟨i, hi, rfl⟩ := List.mem_map.mp hd
  have h1 : 1/5 ≤ depth_at i := by
    unfold depth_at
    have : (0 : ℚ) ≤ (i : ℚ) := Nat.cast_nonneg i
    linarith
  have h2 := section_modulus_pos hb i
  exact ⟨h1, h2, ne_of_gt h2⟩

theorem C9_witness :
    1/5 ≤ depth_at 0 ∧ 0 < calculate_section_modulus (3/10) (depth_at 0) ∧
      calculate_section_modulus (3/10) (depth_at 0) ≠ 0 :=
  C9_no_zero_divisor (3/10) (by norm_num) (depth_at 0) (by
    unfold depth_candidates
    exact List.mem_map.mpr ⟨0, List.mem_range.mpr (by norm_num [num_candidates]), rfl⟩)

/-- Claim C10: for span > 0, load > 0, width > 0 and a catalogued material,
any returned Design has safety factor at least 1.0: the acceptance test makes
the unrounded ratio strictly greater than 1 and 2-decimal rounding keeps it
at least 1. -/
theorem C10_safety_factor_ge_one (s w b : ℚ) (m : Material) (des : Design)
    (hs : 0 < s) (hw : 0 < w) (hb : 0 < b)
    (h : optimize_beam s w m b = some des) :
    1 ≤ des.safety_factor := by
  obtain ⟨i, hi, hfeas, hmin, rfl⟩ := optimize_beam_some_iff.mp h
  have hM := moment_pos hw hs
  have hZ := section_modulus_pos hb i
  have hstress : 0 < calculate_stress (calculate_bending_moment w s)
      (calculate_section_modulus b (depth_at i)) := div_pos hM hZ
  have hr : 1 < allowable_stress m / calculate_stress (calculate_bending_moment w s)
      (calculate_section_modulus b (depth_at i)) := by
    rw [lt_div_iff₀ hstress]
    have hlt : calculate_stress (calculate_bending_moment w s)
        (calculate_section_modulus b (depth_at i)) < allowable_stress m := hfeas
    linarith
  simp only [make_design]
  exact one_le_pyRound_two hr

theorem C10_witness :
    1 ≤ (make_design 5 20000 Material.Concrete (3/10) 31).safety_factor :=
  C10_safety_factor_ge_one 5 20000 (3/10) Material.Concrete _
    (by norm_num) (by norm_num) (by norm_num) optimize_concrete_main

end CoreEngine
